import Mathlib

/-!
Verification of the rocket NPU job scheduling and dependency-fencing engine
(drivers/accel/rocket/rocket_job.c), as a shallow embedding in Lean.

The per-core execution machinery (rocket_job_hw_submit, rocket_job_run,
rocket_job_handle_done, rocket_job_handle_irq, rocket_reset,
rocket_job_timedout) is embedded as pure functions over an explicit core
state.  The buffer fence-record machinery (rocket_acquire_object_fences,
rocket_attach_object_fences, rocket_job_push) is embedded over an explicit
per-buffer fence store; dma_resv / drm_sched primitives that live outside
this driver are modelled from the spec where noted.  The ioctl admission
path (rocket_copy_tasks, rocket_ioctl_submit_job, rocket_ioctl_submit) is
embedded with explicit error codes (-22 is -EINVAL).
-/

namespace Rocket

/-- A dma_fence as the driver uses it: we record how many times
`dma_fence_signal_locked` has been invoked on it.  A fresh fence has
`signalCalls = 0`; it is signaled iff `signalCalls ≠ 0`. -/
structure Fence where
  signalCalls : Nat
deriving DecidableEq, Repr

/-- One invocation of dma_fence_signal_locked on the fence. -/
def Fence.signal (f : Fence) : Fence :=
  ⟨f.signalCalls + 1⟩

/-- dma_fence_is_signaled. -/
def Fence.isSignaled (f : Fence) : Bool :=
  f.signalCalls != 0

/-- The fields of struct rocket_job that the scheduling engine reads and
writes: the task count, the cursor `next_task_idx` (next task index to
dispatch) and the job's done fence. -/
structure RocketJob where
  task_count : Nat
  next_task_idx : Nat
  done_fence : Fence
deriving DecidableEq, Repr

/-- Per-core state (struct rocket_core plus the job executing on it):
`job` is the job being tracked through the machine, `inFlight` says whether
`core->in_flight_job` currently points at it, `resetPending` is
`core->reset.pending`, `domainAttached` records whether the execution
domain (iommu group) is attached, `issued` is the log of task indices whose
register writes have been issued to the hardware, and `queue` holds jobs
queued on the scheduler but not yet run. -/
structure CoreState where
  job : RocketJob
  inFlight : Bool
  resetPending : Bool
  domainAttached : Bool
  issued : List Nat
  queue : List RocketJob
deriving DecidableEq, Repr

/-- rocket_job_hw_submit: returns immediately if a reset is pending,
otherwise reads `tasks[next_task_idx]`, increments the cursor, and writes
the task's command stream registers (recorded in `issued`). -/
def rocket_job_hw_submit (s : CoreState) : CoreState :=
  if s.resetPending then s
  else
    { s with
      job := { s.job with next_task_idx := s.job.next_task_idx + 1 },
      issued := s.issued ++ [s.job.next_task_idx] }

/-- rocket_job_run (the drm_sched run_job callback): nothing to execute if
the cursor already equals the task count (job finished while the GPU was
being reset); otherwise creates a fresh done fence, attaches the execution
domain, stores the job in the core's in-flight slot and submits the next
task to the hardware. -/
def rocket_job_run (s : CoreState) : CoreState :=
  if s.job.next_task_idx = s.job.task_count then s
  else
    rocket_job_hw_submit
      { s with
        job := { s.job with done_fence := ⟨0⟩ },
        domainAttached := true,
        inFlight := true }

/-- rocket_job_handle_done: if the in-flight job still has tasks remaining,
submit the next one on the same core; otherwise clear the in-flight slot,
detach the execution domain and signal the job's done fence. -/
def rocket_job_handle_done (s : CoreState) : CoreState :=
  if s.job.next_task_idx < s.job.task_count then
    rocket_job_hw_submit s
  else
    { s with
      inFlight := false,
      domainAttached := false,
      job := { s.job with done_fence := s.job.done_fence.signal } }

/-- rocket_job_handle_irq (bottom half): under the core's job lock, call
rocket_job_handle_done on the in-flight job when there is one.  The
register reads/writes of the handler touch no job state. -/
def rocket_job_handle_irq (s : CoreState) : CoreState :=
  if s.inFlight then rocket_job_handle_done s else s

/-- rocket_reset: returns if no reset is pending; otherwise handles any
remaining interrupt, clears the in-flight slot, power-cycles the core and
clears the reset-pending flag.  The scheduler's queued jobs (resubmitted by
drm_sched_resubmit_jobs with their fields untouched) are kept in `queue`. -/
def rocket_reset (s : CoreState) : CoreState :=
  if s.resetPending = false then s
  else
    let s1 := rocket_job_handle_irq s
    let s2 := { s1 with inFlight := false }
    { s2 with resetPending := false }

/-- rocket_job_timedout: bail out as spurious if the done fence is already
signaled; otherwise synchronize the interrupt handler (`irqPending` says
whether a completion interrupt was in flight and got handled during
`synchronize_irq`), re-check the fence, and only if it is still unsignaled
set the reset-pending flag, run rocket_reset, and detach the execution
domain.  The boolean result records whether a reset was performed. -/
def rocket_job_timedout (s : CoreState) (irqPending : Bool) :
    CoreState × Bool :=
  if s.job.done_fence.isSignaled then (s, false)
  else
    let s1 := if irqPending then rocket_job_handle_irq s else s
    if s1.job.done_fence.isSignaled then (s1, false)
    else
      let s2 := { s1 with resetPending := true }
      let s3 := rocket_reset s2
      ({ s3 with domainAttached := false }, true)

/-- The operations the scheduling engine performs on a core's state. -/
inductive Step where
  | run : Step
  | irq : Step
  | timedout : Bool → Step
  | reset : Step
deriving DecidableEq, Repr

def applyStep : Step → CoreState → CoreState
  | Step.run, s => rocket_job_run s
  | Step.irq, s => rocket_job_handle_irq s
  | Step.timedout b, s => (rocket_job_timedout s b).1
  | Step.reset, s => rocket_reset s

def applySteps : List Step → CoreState → CoreState
  | [], s => s
  | st :: rest, s => applySteps rest (applyStep st s)

/-- A freshly submitted job with `tc` tasks on an idle core. -/
def initState (tc : Nat) : CoreState :=
  ⟨⟨tc, 0, ⟨0⟩⟩, false, false, false, [], []⟩

/-- Deliver `k` completion interrupts after a state. -/
def irqIter : Nat → CoreState → CoreState
  | 0, s => s
  | k + 1, s => rocket_job_handle_irq (irqIter k s)

/-- The cursor-related facts preserved by every operation of the engine:
the task count is untouched, the cursor never decreases, a cursor strictly
below the task count never moves past it, and a complete job (cursor equal
to the task count) neither moves its cursor nor issues anything further. -/
def StepOK (s t : CoreState) : Prop :=
  t.job.task_count = s.job.task_count ∧
  s.job.next_task_idx ≤ t.job.next_task_idx ∧
  (s.job.next_task_idx < s.job.task_count →
    t.job.next_task_idx ≤ s.job.task_count) ∧
  (s.job.next_task_idx = s.job.task_count →
    t.job.next_task_idx = s.job.next_task_idx ∧ t.issued = s.issued)

/-! ### Buffer fence records and rocket_job_push

Fences are identified by natural numbers; a buffer's dma_resv object is
modelled by the writer fence and reader-fence set the spec describes. -/

/-- Modelled from the spec: the per-buffer fence record kept in the
buffer's reservation object — the most recent writer fence and the set of
reader fences since the last writer (dma_resv is outside this driver). -/
structure BufFences where
  writer : Option Nat
  readers : List Nat
deriving DecidableEq, Repr

/-- Modelled from the spec: drm_sched_job_add_implicit_dependencies (drm
scheduler core, outside this driver) adds to the job's dependency set, for
a read access, the buffer's prior writer fence, and for a write access, the
prior writer fence plus all prior reader fences. -/
def drm_sched_job_add_implicit_dependencies (deps : List Nat)
    (b : BufFences) (write : Bool) : List Nat :=
  if write then deps ++ b.writer.toList ++ b.readers
  else deps ++ b.writer.toList

/-- rocket_acquire_object_fences: for each buffer in the list, add its
implicit dependencies to the job's dependency set (`write` per call site). -/
def rocket_acquire_object_fences (store : Nat → BufFences)
    (bos : List Nat) (deps : List Nat) (write : Bool) : List Nat :=
  bos.foldl (fun d b => drm_sched_job_add_implicit_dependencies d (store b) write) deps

/-- Modelled from the spec: dma_resv_add_fence with write usage (dma_resv
is outside this driver) — the fence becomes the buffer's writer fence,
replacing the prior writer fence and clearing the reader-fence set. -/
def dma_resv_add_fence_write (store : Nat → BufFences) (b : Nat)
    (f : Nat) : Nat → BufFences :=
  fun x => if x = b then ⟨some f, []⟩ else store x

/-- rocket_attach_object_fences: add the fence to each buffer in the list
with write usage. -/
def rocket_attach_object_fences (store : Nat → BufFences)
    (bos : List Nat) (f : Nat) : Nat → BufFences :=
  bos.foldl (fun st b => dma_resv_add_fence_write st b f) store

/-- The parts of a job that rocket_job_push consumes: the input and output
buffer sets (by buffer id) and the job's inference-done fence id. -/
structure PushJob where
  in_bos : List Nat
  out_bos : List Nat
  fence : Nat
deriving DecidableEq, Repr

/-- rocket_job_push: acquire the implicit dependencies of the input
buffers (read access) and of the output buffers (write access) against the
current buffer records, push the job, then attach the job's done fence to
the output buffers only.  Returns the updated buffer store and the job's
dependency set. -/
def rocket_job_push (store : Nat → BufFences) (j : PushJob) :
    (Nat → BufFences) × List Nat :=
  let deps := rocket_acquire_object_fences store j.in_bos [] false
  let deps := rocket_acquire_object_fences store j.out_bos deps true
  let store := rocket_attach_object_fences store j.out_bos j.fence
  (store, deps)

/-- Modelled from the spec: the scheduler dispatches a job only once every
fence in its dependency set is signaled (`sig` maps fence id to its
signaled state). -/
def canDispatch (sig : Nat → Bool) (deps : List Nat) : Bool :=
  deps.all sig

/-! ### Ioctl admission path -/

/-- An element of the userspace task array (struct drm_rocket_task). -/
structure DrmRocketTask where
  regcmd : Nat
  regcmd_count : Nat
  reserved : Nat
deriving DecidableEq, Repr

/-- A userspace job descriptor (struct drm_rocket_job); `tasks` stands for
the array at `job->tasks` with `task_count` its length. -/
structure DrmRocketJob where
  reserved : Nat
  tasks : List DrmRocketTask
  in_bo_handles : List Nat
  out_bo_handles : List Nat
deriving DecidableEq, Repr

/-- A validated task as stored in rjob->tasks (struct rocket_task). -/
structure RocketTask where
  regcmd : Nat
  regcmd_count : Nat
deriving DecidableEq, Repr

/-- rocket_copy_tasks: validate and copy the task array; a task with a
non-zero reserved field or a zero regcmd_count makes the call fail with
-EINVAL (-22). -/
def rocket_copy_tasks : List DrmRocketTask → Except Int (List RocketTask)
  | [] => Except.ok []
  | t :: rest =>
    if t.reserved ≠ 0 then Except.error (-22)
    else if t.regcmd_count = 0 then Except.error (-22)
    else
      match rocket_copy_tasks rest with
      | Except.error e => Except.error e
      | Except.ok ts => Except.ok (⟨t.regcmd, t.regcmd_count⟩ :: ts)

/-- rocket_ioctl_submit_job: reject with -EINVAL (-22) if the task count is
zero, propagate rocket_copy_tasks' error otherwise, and push the job when
all checks pass.  Result: (return code, whether the job was pushed to the
scheduler).  Allocation failures and unknown buffer handles are not
modelled (handles are assumed valid). -/
def rocket_ioctl_submit_job (j : DrmRocketJob) : Int × Bool :=
  if j.tasks.length = 0 then (-22, false)
  else
    match rocket_copy_tasks j.tasks with
    | Except.error e => (e, false)
    | Except.ok _ => (0, true)

/-- The job loop of rocket_ioctl_submit: a job with a non-zero reserved
field returns -EINVAL immediately; otherwise rocket_ioctl_submit_job is
called and — as in the source — its return value is discarded.  Result:
(return code, list of jobs pushed to the scheduler). -/
def rocket_submit_jobs : List DrmRocketJob → Int × List DrmRocketJob
  | [] => (0, [])
  | j :: rest =>
    if j.reserved ≠ 0 then (-22, [])
    else
      let r := rocket_ioctl_submit_job j
      let rec_result := rocket_submit_jobs rest
      (rec_result.1, (if r.2 then [j] else []) ++ rec_result.2)

/-- rocket_ioctl_submit: reject with -EINVAL if the submit struct's
reserved field is non-zero, then run the job loop. -/
def rocket_ioctl_submit (args_reserved : Nat) (jobs : List DrmRocketJob) :
    Int × List DrmRocketJob :=
  if args_reserved ≠ 0 then (-22, [])
  else rocket_submit_jobs jobs

/-! ### Execution traces of a single job -/

/-- While tasks remain, each completion interrupt advances the cursor by
one and issues the next task; the fence stays untouched. -/
lemma irqIter_run_lt (tc : Nat) : ∀ k, k < tc →
    irqIter k (rocket_job_run (initState tc)) =
      ⟨⟨tc, k + 1, ⟨0⟩⟩, true, false, true, List.range (k + 1), []⟩ := by
  intro k
  induction k with
  | zero =>
    intro hk
    have h0 : ¬ (0 = tc) := by omega
    simp [irqIter, rocket_job_run, initState, rocket_job_hw_submit, h0,
      List.range_succ]
  | succ k ih =>
    intro hk
    rw [irqIter, ih (by omega)]
    have hlt : k + 1 < tc := hk
    simp [rocket_job_handle_irq, rocket_job_handle_done, rocket_job_hw_submit,
      hlt, List.range_succ]

/-- The interrupt after the last task completes the job: in-flight slot
cleared, domain detached, fence signaled once. -/
lemma irqIter_run_done (tc : Nat) (h : 1 ≤ tc) :
    irqIter tc (rocket_job_run (initState tc)) =
      ⟨⟨tc, tc, ⟨1⟩⟩, false, false, false, List.range tc, []⟩ := by
  obtain ⟨k, rfl⟩ : ∃ k, tc = k + 1 := ⟨tc - 1, by omega⟩
  rw [irqIter, irqIter_run_lt (k + 1) k (by omega)]
  simp [rocket_job_handle_irq, rocket_job_handle_done, Fence.signal]

/-- Further (spurious) interrupts leave the completed state unchanged. -/
lemma irqIter_run_stable (tc m : Nat) (h : 1 ≤ tc) :
    irqIter (tc + m) (rocket_job_run (initState tc)) =
      ⟨⟨tc, tc, ⟨1⟩⟩, false, false, false, List.range tc, []⟩ := by
  induction m with
  | zero => exact irqIter_run_done tc h
  | succ m ih =>
    show rocket_job_handle_irq (irqIter (tc + m) (rocket_job_run (initState tc))) = _
    rw [ih]
    simp [rocket_job_handle_irq]

/-- C1: for every job submitted with task count ≥ 1, the done-fence is
signaled exactly once — unsignaled after every interrupt that still leaves
tasks undispatched, signaled exactly once from the task_count-th completion
on — and the signal happens only after every task has been issued (the
issued log holds all task indices at signal time); in general the
completion handler changes the fence only when the in-flight job's cursor
has reached its task count. -/
theorem done_fence_signaled_exactly_once (tc : Nat) (h : 1 ≤ tc) :
    (∀ k, k < tc →
      (irqIter k (rocket_job_run (initState tc))).job.done_fence.signalCalls = 0) ∧
    (∀ m, (irqIter (tc + m)
      (rocket_job_run (initState tc))).job.done_fence.signalCalls = 1) ∧
    (irqIter tc (rocket_job_run (initState tc))).issued = List.range tc ∧
    (∀ s : CoreState,
      (rocket_job_handle_irq s).job.done_fence.signalCalls ≠
          s.job.done_fence.signalCalls →
      s.inFlight = true ∧ s.job.task_count ≤ s.job.next_task_idx) := by
  refine ⟨?_, ?_, ?_, ?_⟩
  · intro k hk
    rw [irqIter_run_lt tc k hk]
  · intro m
    rw [irqIter_run_stable tc m h]
  · rw [irqIter_run_done tc h]
  · intro s hne
    by_cases hf : s.inFlight
    · by_cases hlt : s.job.next_task_idx < s.job.task_count
      · exfalso
        by_cases hr : s.resetPending <;>
          simp [rocket_job_handle_irq, rocket_job_handle_done,
            rocket_job_hw_submit, hf, hlt, hr] at hne
      · exact ⟨hf, by omega⟩
    · exfalso
      simp [rocket_job_handle_irq, hf] at hne

/-- Witness for C1 at a concrete two-task job. -/
theorem done_fence_signaled_exactly_once_witness :
    1 ≤ 2 ∧
    (irqIter 1 (rocket_job_run (initState 2))).job.done_fence.signalCalls = 0 ∧
    (irqIter 2 (rocket_job_run (initState 2))).job.done_fence.signalCalls = 1 ∧
    (irqIter 2 (rocket_job_run (initState 2))).issued = List.range 2 :=
  ⟨by decide,
   (done_fence_signaled_exactly_once 2 (by decide)).1 1 (by decide),
   by simpa using (done_fence_signaled_exactly_once 2 (by decide)).2.1 0,
   (done_fence_signaled_exactly_once 2 (by decide)).2.2.1⟩

/-- C6: the bottom half on a core with an in-flight job either dispatches
the job's next task on the same core (cursor below task count, no reset
pending: cursor advances by one, the task is issued, and nothing else —
in particular no queue — changes), or, when the cursor equals the task
count, clears the in-flight slot, detaches the execution domain and
signals the done-fence. -/
theorem irq_continuation_or_complete (s : CoreState) (h : s.inFlight = true) :
    (s.job.next_task_idx < s.job.task_count → s.resetPending = false →
      rocket_job_handle_irq s =
        { s with
          job := { s.job with next_task_idx := s.job.next_task_idx + 1 },
          issued := s.issued ++ [s.job.next_task_idx] }) ∧
    (s.job.next_task_idx = s.job.task_count →
      rocket_job_handle_irq s =
        { s with
          inFlight := false,
          domainAttached := false,
          job := { s.job with done_fence := s.job.done_fence.signal } }) := by
  constructor
  · intro hlt hr
    simp [rocket_job_handle_irq, rocket_job_handle_done, rocket_job_hw_submit,
      h, hlt, hr]
  · intro heq
    have hnlt : ¬ s.job.next_task_idx < s.job.task_count := by omega
    simp [rocket_job_handle_irq, rocket_job_handle_done, h, hnlt]

/-- Witness for C6: a two-task job mid-flight and the same job at its last
task. -/
theorem irq_continuation_or_complete_witness :
    ((⟨⟨2, 1, ⟨0⟩⟩, true, false, true, [0], []⟩ : CoreState).inFlight = true) ∧
    rocket_job_handle_irq ⟨⟨2, 1, ⟨0⟩⟩, true, false, true, [0], []⟩ =
      ⟨⟨2, 2, ⟨0⟩⟩, true, false, true, [0, 1], []⟩ ∧
    rocket_job_handle_irq ⟨⟨2, 2, ⟨0⟩⟩, true, false, true, [0, 1], []⟩ =
      ⟨⟨2, 2, ⟨1⟩⟩, false, false, false, [0, 1], []⟩ := by
  refine ⟨rfl, ?_, ?_⟩
  · have := (irq_continuation_or_complete
      ⟨⟨2, 1, ⟨0⟩⟩, true, false, true, [0], []⟩ rfl).1 (by decide) rfl
    simpa using this
  · have := (irq_continuation_or_complete
      ⟨⟨2, 2, ⟨0⟩⟩, true, false, true, [0, 1], []⟩ rfl).2 rfl
    simpa [Fence.signal] using this

/-- C10: the completion handler on a core whose in-flight slot is empty
changes nothing — no fence is signaled, no task is dispatched, the slot
stays empty. -/
theorem irq_empty_slot_noop (s : CoreState) (h : s.inFlight = false) :
    rocket_job_handle_irq s = s := by
  simp [rocket_job_handle_irq, h]

/-- Witness for C10 at a concrete idle core. -/
theorem irq_empty_slot_noop_witness :
    (initState 3).inFlight = false ∧
    rocket_job_handle_irq (initState 3) = initState 3 :=
  ⟨rfl, irq_empty_slot_noop (initState 3) rfl⟩

/-- C7: a timeout performs a hardware reset exactly when the job's done
fence is unsignaled both when the timeout fires and again after the
interrupt-synchronization re-check; a fence found signaled at the first
check makes the timeout spurious with the state untouched, and one found
signaled at the re-check also suppresses the reset. -/
theorem timeout_resets_iff_unsignaled_twice (s : CoreState) (b : Bool) :
    ((rocket_job_timedout s b).2 = true ↔
      s.job.done_fence.isSignaled = false ∧
      ((if b then rocket_job_handle_irq s else s).job.done_fence.isSignaled
        = false)) ∧
    (s.job.done_fence.isSignaled = true →
      rocket_job_timedout s b = (s, false)) ∧
    ((if b then rocket_job_handle_irq s else s).job.done_fence.isSignaled
        = true →
      (rocket_job_timedout s b).2 = false) := by
  unfold rocket_job_timedout
  by_cases h1 : s.job.done_fence.isSignaled <;>
    by_cases h2 : (if b then rocket_job_handle_irq s else s).job.done_fence.isSignaled <;>
      simp [h1, h2]

/-- Witness for C7: a signaled fence makes the timeout spurious; a fence
unsignaled at both checks triggers the reset. -/
theorem timeout_resets_iff_unsignaled_twice_witness :
    ((⟨⟨1, 1, ⟨1⟩⟩, false, false, false, [0], []⟩ : CoreState).job.done_fence.isSignaled = true) ∧
    rocket_job_timedout ⟨⟨1, 1, ⟨1⟩⟩, false, false, false, [0], []⟩ false =
      (⟨⟨1, 1, ⟨1⟩⟩, false, false, false, [0], []⟩, false) ∧
    (rocket_job_timedout ⟨⟨1, 1, ⟨0⟩⟩, true, false, true, [0], []⟩ false).2 = true :=
  ⟨by decide,
   (timeout_resets_iff_unsignaled_twice
     ⟨⟨1, 1, ⟨1⟩⟩, false, false, false, [0], []⟩ false).2.1 (by decide),
   (timeout_resets_iff_unsignaled_twice
     ⟨⟨1, 1, ⟨0⟩⟩, true, false, true, [0], []⟩ false).1.mpr (by decide)⟩

/-- The completion handler never touches the scheduler queue. -/
lemma handle_irq_queue (s : CoreState) :
    (rocket_job_handle_irq s).queue = s.queue := by
  by_cases hf : s.inFlight <;>
    by_cases hlt : s.job.next_task_idx < s.job.task_count <;>
      by_cases hr : s.resetPending <;>
        simp [rocket_job_handle_irq, rocket_job_handle_done,
          rocket_job_hw_submit, hf, hlt, hr]

/-- With a reset pending, the completion handler cannot advance the
cursor (hardware submission is refused). -/
lemma handle_irq_cursor_of_reset_pending (s : CoreState)
    (h : s.resetPending = true) :
    (rocket_job_handle_irq s).job.next_task_idx = s.job.next_task_idx := by
  by_cases hf : s.inFlight <;>
    by_cases hlt : s.job.next_task_idx < s.job.task_count <;>
      simp [rocket_job_handle_irq, rocket_job_handle_done,
        rocket_job_hw_submit, hf, hlt, h]

/-- C8: the recovery path leaves the core with the reset-pending flag
cleared and the in-flight slot empty, the scheduler queue and the hung
job's cursor intact; re-running a job (the drm scheduler resubmits queued
jobs with their fields untouched) dispatches its task at the preserved
cursor — not task zero — and a job whose cursor equals its task count
dispatches nothing. -/
theorem reset_recovery_state :
    (∀ s : CoreState, s.resetPending = true →
      (rocket_reset s).resetPending = false ∧
      (rocket_reset s).inFlight = false ∧
      (rocket_reset s).queue = s.queue ∧
      (rocket_reset s).job.next_task_idx = s.job.next_task_idx) ∧
    (∀ s : CoreState, s.resetPending = false →
      s.job.next_task_idx < s.job.task_count →
      (rocket_job_run s).issued = s.issued ++ [s.job.next_task_idx] ∧
      (rocket_job_run s).job.next_task_idx = s.job.next_task_idx + 1) ∧
    (∀ s : CoreState, s.job.next_task_idx = s.job.task_count →
      rocket_job_run s = s) := by
  refine ⟨?_, ?_, ?_⟩
  · intro s h
    unfold rocket_reset
    simp only [h]
    simp [handle_irq_queue, handle_irq_cursor_of_reset_pending s h]
  · intro s hr hlt
    have hne : ¬ s.job.next_task_idx = s.job.task_count := by omega
    simp [rocket_job_run, rocket_job_hw_submit, hne, hr]
  · intro s heq
    simp [rocket_job_run, heq]

/-- Witness for C8: a pending-reset core with a queued job, and a job
resuming from cursor 1 of 2 (not from task zero). -/
theorem reset_recovery_state_witness :
    ((⟨⟨3, 1, ⟨0⟩⟩, true, true, true, [0], [⟨2, 0, ⟨0⟩⟩]⟩ : CoreState).resetPending = true) ∧
    (rocket_reset ⟨⟨3, 1, ⟨0⟩⟩, true, true, true, [0], [⟨2, 0, ⟨0⟩⟩]⟩).resetPending = false ∧
    (rocket_reset ⟨⟨3, 1, ⟨0⟩⟩, true, true, true, [0], [⟨2, 0, ⟨0⟩⟩]⟩).inFlight = false ∧
    (rocket_reset ⟨⟨3, 1, ⟨0⟩⟩, true, true, true, [0], [⟨2, 0, ⟨0⟩⟩]⟩).queue = [⟨2, 0, ⟨0⟩⟩] ∧
    (rocket_reset ⟨⟨3, 1, ⟨0⟩⟩, true, true, true, [0], [⟨2, 0, ⟨0⟩⟩]⟩).job.next_task_idx = 1 ∧
    (rocket_job_run ⟨⟨2, 1, ⟨0⟩⟩, false, false, false, [0], []⟩).issued = [0, 1] ∧
    rocket_job_run ⟨⟨2, 2, ⟨1⟩⟩, false, false, false, [0, 1], []⟩ =
      ⟨⟨2, 2, ⟨1⟩⟩, false, false, false, [0, 1], []⟩ := by
  have h1 := (reset_recovery_state).1
    ⟨⟨3, 1, ⟨0⟩⟩, true, true, true, [0], [⟨2, 0, ⟨0⟩⟩]⟩ rfl
  have h2 := (reset_recovery_state).2.1
    ⟨⟨2, 1, ⟨0⟩⟩, false, false, false, [0], []⟩ rfl (by decide)
  have h3 := (reset_recovery_state).2.2
    ⟨⟨2, 2, ⟨1⟩⟩, false, false, false, [0, 1], []⟩ rfl
  exact ⟨rfl, h1.1, h1.2.1, h1.2.2.1, h1.2.2.2, by simpa using h2.1, h3⟩

/-! ### The cursor invariant -/

lemma stepOK_refl (s : CoreState) : StepOK s s :=
  ⟨rfl, Nat.le_refl _, fun h => Nat.le_of_lt h, fun _ => ⟨rfl, rfl⟩⟩

lemma stepOK_of_eq {s t : CoreState}
    (h1 : t.job.task_count = s.job.task_count)
    (h2 : t.job.next_task_idx = s.job.next_task_idx)
    (h3 : t.issued = s.issued) : StepOK s t := by
  unfold StepOK
  rw [h1, h2, h3]
  exact ⟨rfl, Nat.le_refl _, fun h => Nat.le_of_lt h, fun _ => ⟨rfl, rfl⟩⟩

lemma stepOK_trans {s t u : CoreState} (h1 : StepOK s t)
    (h2 : StepOK t u) : StepOK s u := by
  obtain ⟨a1, a2, a3, a4⟩ := h1
  obtain ⟨b1, b2, b3, b4⟩ := h2
  refine ⟨by omega, by omega, ?_, ?_⟩
  · intro hlt
    have ht := a3 hlt
    by_cases hc : t.job.next_task_idx < t.job.task_count
    · have := b3 hc
      omega
    · have heq : t.job.next_task_idx = t.job.task_count := by omega
      have := b4 heq
      omega
  · intro heq
    obtain ⟨e1, e2⟩ := a4 heq
    have heq2 : t.job.next_task_idx = t.job.task_count := by omega
    obtain ⟨f1, f2⟩ := b4 heq2
    exact ⟨by omega, by rw [f2, e2]⟩

lemma stepOK_hw_submit_of_ne (s : CoreState)
    (hne : s.job.next_task_idx ≠ s.job.task_count) :
    StepOK s (rocket_job_hw_submit s) := by
  by_cases hr : s.resetPending
  · have h : rocket_job_hw_submit s = s := by simp [rocket_job_hw_submit, hr]
    rw [h]
    exact stepOK_refl s
  · have h1 : (rocket_job_hw_submit s).job.task_count = s.job.task_count := by
      simp [rocket_job_hw_submit, hr]
    have h2 : (rocket_job_hw_submit s).job.next_task_idx =
        s.job.next_task_idx + 1 := by
      simp [rocket_job_hw_submit, hr]
    exact ⟨h1, by omega, fun h => by omega, fun h => absurd h hne⟩

lemma stepOK_run (s : CoreState) : StepOK s (rocket_job_run s) := by
  unfold rocket_job_run
  by_cases he : s.job.next_task_idx = s.job.task_count
  · rw [if_pos he]
    exact stepOK_refl s
  · rw [if_neg he]
    exact stepOK_trans (stepOK_of_eq rfl rfl rfl)
      (stepOK_hw_submit_of_ne _ he)

lemma stepOK_handle_done (s : CoreState) :
    StepOK s (rocket_job_handle_done s) := by
  unfold rocket_job_handle_done
  by_cases hlt : s.job.next_task_idx < s.job.task_count
  · rw [if_pos hlt]
    exact stepOK_hw_submit_of_ne s (by omega)
  · rw [if_neg hlt]
    exact stepOK_of_eq rfl rfl rfl

lemma stepOK_irq (s : CoreState) :
    StepOK s (rocket_job_handle_irq s) := by
  unfold rocket_job_handle_irq
  by_cases hf : s.inFlight = true
  · rw [if_pos hf]
    exact stepOK_handle_done s
  · rw [if_neg hf]
    exact stepOK_refl s

lemma stepOK_reset (s : CoreState) : StepOK s (rocket_reset s) := by
  by_cases hp : s.resetPending = false
  · have h : rocket_reset s = s := by simp [rocket_reset, hp]
    rw [h]
    exact stepOK_refl s
  · have h1 : (rocket_reset s).job = (rocket_job_handle_irq s).job := by
      simp [rocket_reset, hp]
    have h2 : (rocket_reset s).issued = (rocket_job_handle_irq s).issued := by
      simp [rocket_reset, hp]
    exact stepOK_trans (stepOK_irq s)
      (stepOK_of_eq (by rw [h1]) (by rw [h1]) h2)

lemma stepOK_timedout (s : CoreState) (b : Bool) :
    StepOK s (rocket_job_timedout s b).1 := by
  by_cases h1 : s.job.done_fence.isSignaled
  · have h : (rocket_job_timedout s b).1 = s := by
      simp [rocket_job_timedout, h1]
    rw [h]
    exact stepOK_refl s
  · have hs1 : StepOK s (if b then rocket_job_handle_irq s else s) := by
      cases b
      · simpa using stepOK_refl s
      · simpa using stepOK_irq s
    by_cases h2 : (if b then rocket_job_handle_irq s else s).job.done_fence.isSignaled
    · have h : (rocket_job_timedout s b).1 =
          (if b then rocket_job_handle_irq s else s) := by
        simp [rocket_job_timedout, h1, h2]
      rw [h]
      exact hs1
    · have h : (rocket_job_timedout s b).1 =
          { rocket_reset
              { (if b then rocket_job_handle_irq s else s) with
                resetPending := true } with
            domainAttached := false } := by
        simp [rocket_job_timedout, h1, h2]
      rw [h]
      have hB : StepOK (if b then rocket_job_handle_irq s else s)
          { (if b then rocket_job_handle_irq s else s) with
            resetPending := true } :=
        stepOK_of_eq rfl rfl rfl
      have hC : StepOK
          { (if b then rocket_job_handle_irq s else s) with
            resetPending := true }
          (rocket_reset
            { (if b then rocket_job_handle_irq s else s) with
              resetPending := true }) :=
        stepOK_reset _
      have hD : StepOK
          (rocket_reset
            { (if b then rocket_job_handle_irq s else s) with
              resetPending := true })
          { rocket_reset
              { (if b then rocket_job_handle_irq s else s) with
                resetPending := true } with
            domainAttached := false } :=
        stepOK_of_eq rfl rfl rfl
      exact stepOK_trans (stepOK_trans (stepOK_trans hs1 hB) hC) hD

lemma stepOK_applyStep (st : Step) (s : CoreState) :
    StepOK s (applyStep st s) := by
  cases st with
  | run => exact stepOK_run s
  | irq => exact stepOK_irq s
  | timedout b => exact stepOK_timedout s b
  | reset => exact stepOK_reset s

lemma stepOK_applySteps (l : List Step) (s : CoreState) :
    StepOK s (applySteps l s) := by
  induction l generalizing s with
  | nil => exact stepOK_refl s
  | cons st rest ih =>
    exact stepOK_trans (stepOK_applyStep st s) (ih (applyStep st s))

/-- C9: under every sequence of dispatch, completion-handling, timeout and
reset operations, a job's task count is untouched, its cursor is
monotonically non-decreasing and never exceeds the task count, a job whose
cursor equals its task count never has another task issued to hardware,
and hardware dispatch is a cursor-preserving no-op while a reset is
pending. -/
theorem cursor_monotone_bounded :
    (∀ (l : List Step) (s : CoreState),
      (applySteps l s).job.task_count = s.job.task_count ∧
      s.job.next_task_idx ≤ (applySteps l s).job.next_task_idx ∧
      (s.job.next_task_idx ≤ s.job.task_count →
        (applySteps l s).job.next_task_idx ≤ s.job.task_count) ∧
      (s.job.next_task_idx = s.job.task_count →
        (applySteps l s).job.next_task_idx = s.job.next_task_idx ∧
        (applySteps l s).issued = s.issued)) ∧
    (∀ s : CoreState, s.resetPending = true →
      rocket_job_hw_submit s = s ∧
      (rocket_job_run s).job.next_task_idx = s.job.next_task_idx ∧
      (rocket_job_run s).issued = s.issued) := by
  constructor
  · intro l s
    obtain ⟨a1, a2, a3, a4⟩ := stepOK_applySteps l s
    refine ⟨a1, a2, ?_, a4⟩
    intro hle
    by_cases hlt : s.job.next_task_idx < s.job.task_count
    · exact a3 hlt
    · have heq : s.job.next_task_idx = s.job.task_count := by omega
      have := a4 heq
      omega
  · intro s h
    refine ⟨by simp [rocket_job_hw_submit, h], ?_, ?_⟩ <;>
      by_cases he : s.job.next_task_idx = s.job.task_count <;>
        simp [rocket_job_run, rocket_job_hw_submit, he, h]

/-- Witness for C9: a two-step trace on a fresh two-task job, and a
pending-reset dispatch no-op. -/
theorem cursor_monotone_bounded_witness :
    ((initState 2).job.next_task_idx ≤ (initState 2).job.task_count) ∧
    (applySteps [Step.run, Step.irq] (initState 2)).job.next_task_idx ≤
      (initState 2).job.task_count ∧
    ((⟨⟨2, 1, ⟨0⟩⟩, true, true, true, [0], []⟩ : CoreState).resetPending = true) ∧
    rocket_job_hw_submit ⟨⟨2, 1, ⟨0⟩⟩, true, true, true, [0], []⟩ =
      ⟨⟨2, 1, ⟨0⟩⟩, true, true, true, [0], []⟩ :=
  ⟨by decide,
   ((cursor_monotone_bounded).1 [Step.run, Step.irq] (initState 2)).2.2.1 (by decide),
   rfl,
   ((cursor_monotone_bounded).2 ⟨⟨2, 1, ⟨0⟩⟩, true, true, true, [0], []⟩ rfl).1⟩

/-! ### Dependency acquisition and fence publication -/

lemma acquire_cons (store : Nat → BufFences) (a : Nat) (rest : List Nat)
    (deps : List Nat) (w : Bool) :
    rocket_acquire_object_fences store (a :: rest) deps w =
      rocket_acquire_object_fences store rest
        (drm_sched_job_add_implicit_dependencies deps (store a) w) w := rfl

/-- Acquisition only adds dependencies, never drops them. -/
lemma mem_acquire (store : Nat → BufFences) (bos : List Nat) (w : Bool) :
    ∀ (deps : List Nat) (x : Nat), x ∈ deps →
      x ∈ rocket_acquire_object_fences store bos deps w := by
  induction bos with
  | nil => exact fun deps x hx => hx
  | cons a rest ih =>
    intro deps x hx
    rw [acquire_cons]
    apply ih
    unfold drm_sched_job_add_implicit_dependencies
    cases w <;> simp [hx]

/-- The writer fence of every acquired buffer enters the dependency set,
for read access and write access alike. -/
lemma writer_mem_acquire (store : Nat → BufFences) (bos : List Nat)
    (w : Bool) :
    ∀ (deps : List Nat) (b f : Nat), b ∈ bos → (store b).writer = some f →
      f ∈ rocket_acquire_object_fences store bos deps w := by
  induction bos with
  | nil => intro _ _ _ hb; cases hb
  | cons a rest ih =>
    intro deps b f hb hw
    rw [acquire_cons]
    rcases List.mem_cons.mp hb with h | h
    · subst h
      apply mem_acquire
      unfold drm_sched_job_add_implicit_dependencies
      cases w <;> simp [hw]
    · exact ih _ b f h hw

/-- The reader fences of every write-acquired buffer enter the dependency
set. -/
lemma readers_mem_acquire (store : Nat → BufFences) (bos : List Nat) :
    ∀ (deps : List Nat) (b f : Nat), b ∈ bos → f ∈ (store b).readers →
      f ∈ rocket_acquire_object_fences store bos deps true := by
  induction bos with
  | nil => intro _ _ _ hb; cases hb
  | cons a rest ih =>
    intro deps b f hb hr
    rw [acquire_cons]
    rcases List.mem_cons.mp hb with h | h
    · subst h
      apply mem_acquire
      unfold drm_sched_job_add_implicit_dependencies
      simp [hr]
    · exact ih _ b f h hr

/-- Attaching a write fence updates exactly the listed buffers. -/
lemma attach_eq (f b : Nat) : ∀ (bos : List Nat) (store : Nat → BufFences),
    rocket_attach_object_fences store bos f b =
      if b ∈ bos then ⟨some f, []⟩ else store b := by
  intro bos
  induction bos with
  | nil => intro store; simp [rocket_attach_object_fences]
  | cons a rest ih =>
    intro store
    show rocket_attach_object_fences
      (dma_resv_add_fence_write store a f) rest f b = _
    rw [ih]
    unfold dma_resv_add_fence_write
    by_cases hb : b ∈ rest
    · simp [hb]
    · by_cases hba : b = a <;> simp [hb, hba]

/-- C2: before a pushed job dispatches, its dependency set contains the
prior writer fence of every buffer in its input set and the prior writer
fence plus all prior reader fences of every buffer in its output set;
consequently, when job J1 writes a buffer and job J2 pushed afterwards
reads or writes that buffer, J2 can dispatch only once J1's fence is
signaled. -/
theorem push_acquires_hazard_fences :
    (∀ (store : Nat → BufFences) (j : PushJob) (b f : Nat),
      b ∈ j.in_bos → (store b).writer = some f →
      f ∈ (rocket_job_push store j).2) ∧
    (∀ (store : Nat → BufFences) (j : PushJob) (b f : Nat),
      b ∈ j.out_bos → (store b).writer = some f →
      f ∈ (rocket_job_push store j).2) ∧
    (∀ (store : Nat → BufFences) (j : PushJob) (b f : Nat),
      b ∈ j.out_bos → f ∈ (store b).readers →
      f ∈ (rocket_job_push store j).2) ∧
    (∀ (store : Nat → BufFences) (j1 j2 : PushJob) (b : Nat)
      (sig : Nat → Bool),
      b ∈ j1.out_bos → (b ∈ j2.in_bos ∨ b ∈ j2.out_bos) →
      canDispatch sig (rocket_job_push (rocket_job_push store j1).1 j2).2 = true →
      sig j1.fence = true) := by
  have hin : ∀ (store : Nat → BufFences) (j : PushJob) (b f : Nat),
      b ∈ j.in_bos → (store b).writer = some f →
      f ∈ (rocket_job_push store j).2 := by
    intro store j b f hb hw
    exact mem_acquire store j.out_bos true _ f
      (writer_mem_acquire store j.in_bos false [] b f hb hw)
  have hout : ∀ (store : Nat → BufFences) (j : PushJob) (b f : Nat),
      b ∈ j.out_bos → (store b).writer = some f →
      f ∈ (rocket_job_push store j).2 := by
    intro store j b f hb hw
    exact writer_mem_acquire store j.out_bos true _ b f hb hw
  refine ⟨hin, hout, ?_, ?_⟩
  · intro store j b f hb hr
    exact readers_mem_acquire store j.out_bos _ b f hb hr
  · intro store j1 j2 b sig hb1 hb2 hdisp
    have hstore : ((rocket_job_push store j1).1 b).writer = some j1.fence := by
      show (rocket_attach_object_fences store j1.out_bos j1.fence b).writer
        = some j1.fence
      rw [attach_eq]
      simp [hb1]
    have hmem : j1.fence ∈ (rocket_job_push (rocket_job_push store j1).1 j2).2 := by
      rcases hb2 with h | h
      · exact hin _ j2 b j1.fence h hstore
      · exact hout _ j2 b j1.fence h hstore
    have := List.all_eq_true.mp hdisp j1.fence hmem
    simpa using this

/-- Witness for C2 at concrete buffer stores and jobs. -/
theorem push_acquires_hazard_fences_witness :
    ((0 : Nat) ∈ ([0] : List Nat)) ∧
    (((fun _ => ⟨some 5, [7]⟩) : Nat → BufFences) 0).writer = some 5 ∧
    5 ∈ (rocket_job_push (fun _ => ⟨some 5, [7]⟩) ⟨[0], [2], 9⟩).2 ∧
    7 ∈ (rocket_job_push (fun _ => ⟨some 5, [7]⟩) ⟨[0], [2], 9⟩).2 ∧
    ((fun _ => true) : Nat → Bool) 5 = true :=
  ⟨by decide, rfl,
   (push_acquires_hazard_fences).1 (fun _ => ⟨some 5, [7]⟩) ⟨[0], [2], 9⟩ 0 5
     (by decide) rfl,
   (push_acquires_hazard_fences).2.2.1 (fun _ => ⟨some 5, [7]⟩)
     ⟨[0], [2], 9⟩ 2 7 (by decide) (by simp),
   (push_acquires_hazard_fences).2.2.2 (fun _ => ⟨none, []⟩)
     ⟨[], [0], 5⟩ ⟨[0], [], 9⟩ 0 (fun _ => true)
     (by decide) (Or.inl (by decide)) (by decide)⟩

/-- C3 counterexample: pushing a job with input buffer 0 (prior writer 5,
prior reader 7) and output buffer 1 leaves buffer 0's record untouched —
the new fence 9 is not added to its reader set, contrary to the claim. -/
theorem push_input_readers_not_updated_cex :
    ¬ (9 ∈ ((rocket_job_push (fun _ => ⟨some 5, [7]⟩) ⟨[0], [1], 9⟩).1 0).readers) := by
  decide

/-- C3 amended: on push, the job's fence becomes the writer fence of every
buffer in the output set (replacing the prior writer and clearing the
reader set); every other buffer's record — in particular every
input-set-only buffer's — is left unchanged, the fence is not added to any
reader set. -/
theorem push_publishes_write_fences_only (store : Nat → BufFences)
    (j : PushJob) (b : Nat) :
    (b ∈ j.out_bos → (rocket_job_push store j).1 b = ⟨some j.fence, []⟩) ∧
    (b ∉ j.out_bos → (rocket_job_push store j).1 b = store b) := by
  constructor <;> intro h
  · show rocket_attach_object_fences store j.out_bos j.fence b = _
    rw [attach_eq]
    simp [h]
  · show rocket_attach_object_fences store j.out_bos j.fence b = _
    rw [attach_eq]
    simp [h]

/-- Witness for the amended C3 at a concrete store and job. -/
theorem push_publishes_write_fences_only_witness :
    ((1 : Nat) ∈ ([1] : List Nat)) ∧ ¬ ((0 : Nat) ∈ ([1] : List Nat)) ∧
    (rocket_job_push (fun _ => ⟨some 5, [7]⟩) ⟨[0], [1], 9⟩).1 1 = ⟨some 9, []⟩ ∧
    (rocket_job_push (fun _ => ⟨some 5, [7]⟩) ⟨[0], [1], 9⟩).1 0 = ⟨some 5, [7]⟩ :=
  ⟨by decide, by decide,
   (push_publishes_write_fences_only (fun _ => ⟨some 5, [7]⟩) ⟨[0], [1], 9⟩ 1).1
     (by decide),
   (push_publishes_write_fences_only (fun _ => ⟨some 5, [7]⟩) ⟨[0], [1], 9⟩ 0).2
     (by decide)⟩

/-! ### Submission validation -/

/-- A task array containing a zero command count or a non-zero reserved
field makes rocket_copy_tasks fail with -EINVAL. -/
lemma copy_tasks_error (l : List DrmRocketTask)
    (hbad : ∃ t ∈ l, t.regcmd_count = 0 ∨ t.reserved ≠ 0) :
    rocket_copy_tasks l = Except.error (-22) := by
  induction l with
  | nil => simp at hbad
  | cons t rest ih =>
    unfold rocket_copy_tasks
    by_cases h1 : t.reserved ≠ 0
    · simp [h1]
    · by_cases h2 : t.regcmd_count = 0
      · simp [h1, h2]
      · obtain ⟨u, hu, hbadu⟩ := hbad
        rcases List.mem_cons.mp hu with h | h
        · subst h
          rcases hbadu with h | h
          · exact absurd h h2
          · exact absurd h h1
        · rw [ih ⟨u, h, hbadu⟩]
          simp [h1, h2]

/-- A job with an empty task list, a zero command count or a reserved task
field is rejected by rocket_ioctl_submit_job with -EINVAL and not pushed. -/
lemma submit_job_reject (j : DrmRocketJob)
    (h : j.tasks = [] ∨ ∃ t ∈ j.tasks, t.regcmd_count = 0 ∨ t.reserved ≠ 0) :
    rocket_ioctl_submit_job j = (-22, false) := by
  unfold rocket_ioctl_submit_job
  rcases h with h | h
  · simp [h]
  · have hne : ¬ j.tasks.length = 0 := by
      obtain ⟨t, ht, _⟩ := h
      intro hlen
      rw [List.length_eq_zero] at hlen
      rw [hlen] at ht
      cases ht
    simp [hne, copy_tasks_error _ h]

/-- Only jobs with a zero reserved field that rocket_ioctl_submit_job
pushed appear in the queued list. -/
lemma mem_submit_jobs_queued (jobs : List DrmRocketJob)
    (x : DrmRocketJob) (hx : x ∈ (rocket_submit_jobs jobs).2) :
    x.reserved = 0 ∧ (rocket_ioctl_submit_job x).2 = true := by
  induction jobs with
  | nil => simp [rocket_submit_jobs] at hx
  | cons j rest ih =>
    unfold rocket_submit_jobs at hx
    by_cases h1 : j.reserved ≠ 0
    · simp [h1] at hx
    · simp only [h1, if_false] at hx
      rcases List.mem_append.mp hx with h | h
      · by_cases hp : (rocket_ioctl_submit_job j).2
        · simp [hp] at h
          subst h
          exact ⟨by omega, hp⟩
        · simp [hp] at h
      · exact ih h

/-- A job with a non-zero reserved field anywhere in the array makes the
job loop return -EINVAL. -/
lemma submit_jobs_ret (jobs : List DrmRocketJob)
    (h : ∃ j ∈ jobs, j.reserved ≠ 0) :
    (rocket_submit_jobs jobs).1 = -22 := by
  induction jobs with
  | nil => simp at h
  | cons j rest ih =>
    unfold rocket_submit_jobs
    by_cases h1 : j.reserved ≠ 0
    · simp [h1]
    · obtain ⟨u, hu, hru⟩ := h
      rcases List.mem_cons.mp hu with heq | hu'
      · subst heq
        exact absurd hru h1
      · simp [h1, ih ⟨u, hu', hru⟩]

/-- C4: a submitted job with an empty task list, a task with a zero
command count, or a non-zero reserved field (in a task, or in the job
descriptor) is rejected with -EINVAL and is never queued for execution;
a submission containing a job with a non-zero reserved field returns
-EINVAL. -/
theorem submit_rejects_invalid :
    (∀ j : DrmRocketJob,
      (j.tasks = [] ∨ ∃ t ∈ j.tasks, t.regcmd_count = 0 ∨ t.reserved ≠ 0) →
      rocket_ioctl_submit_job j = (-22, false)) ∧
    (∀ (ar : Nat) (jobs : List DrmRocketJob) (j : DrmRocketJob),
      j ∈ jobs →
      (j.tasks = [] ∨ (∃ t ∈ j.tasks, t.regcmd_count = 0 ∨ t.reserved ≠ 0) ∨
        j.reserved ≠ 0) →
      j ∉ (rocket_ioctl_submit ar jobs).2) ∧
    (∀ (ar : Nat) (jobs : List DrmRocketJob),
      (∃ j ∈ jobs, j.reserved ≠ 0) →
      (rocket_ioctl_submit ar jobs).1 = -22) := by
  refine ⟨submit_job_reject, ?_, ?_⟩
  · intro ar jobs j hj hbad hq
    unfold rocket_ioctl_submit at hq
    by_cases har : ar ≠ 0
    · simp [har] at hq
    · simp only [har, if_false] at hq
      obtain ⟨hr0, hp⟩ := mem_submit_jobs_queued jobs j hq
      rcases hbad with h | h | h
      · rw [submit_job_reject j (Or.inl h)] at hp
        simp at hp
      · rw [submit_job_reject j (Or.inr h)] at hp
        simp at hp
      · exact h hr0
  · intro ar jobs h
    unfold rocket_ioctl_submit
    by_cases har : ar ≠ 0
    · simp [har]
    · simp [har, submit_jobs_ret jobs h]

/-- Witness for C4: a job whose only task has a zero command count is
rejected and never queued. -/
theorem submit_rejects_invalid_witness :
    ((⟨0, [⟨1, 0, 0⟩], [], []⟩ : DrmRocketJob).tasks = [] ∨
      ∃ t ∈ (⟨0, [⟨1, 0, 0⟩], [], []⟩ : DrmRocketJob).tasks,
        t.regcmd_count = 0 ∨ t.reserved ≠ 0) ∧
    rocket_ioctl_submit_job ⟨0, [⟨1, 0, 0⟩], [], []⟩ = (-22, false) ∧
    (⟨0, [⟨1, 0, 0⟩], [], []⟩ : DrmRocketJob) ∉
      (rocket_ioctl_submit 0 [⟨0, [⟨1, 0, 0⟩], [], []⟩]).2 :=
  ⟨by decide,
   (submit_rejects_invalid).1 ⟨0, [⟨1, 0, 0⟩], [], []⟩ (by decide),
   (submit_rejects_invalid).2.1 0 [⟨0, [⟨1, 0, 0⟩], [], []⟩]
     ⟨0, [⟨1, 0, 0⟩], [], []⟩ (by decide) (by decide)⟩

/-- C5 (code bug): a submission whose single job is malformed (here: one
task with a zero command count) is rejected by rocket_ioctl_submit_job
with -EINVAL and never queued, yet rocket_ioctl_submit discards that
return value and reports 0 (success) to the caller. -/
theorem submit_error_code_swallowed :
    rocket_ioctl_submit_job ⟨0, [⟨1, 0, 0⟩, ⟨2, 4, 0⟩], [], []⟩ = (-22, false) ∧
    rocket_ioctl_submit 0 [⟨0, [⟨1, 0, 0⟩, ⟨2, 4, 0⟩], [], []⟩] = (0, []) := by
  decide

end Rocket
